import Mathlib

/-!
Verification of the `fast-bernoulli` crate (`src/lib.rs`): a constant-time
Bernoulli sampler that caches a geometrically distributed "skip count".

Embedding conventions:
* `f64` probabilities and uniform draws are modelled as exact rationals `ℚ`
  (every finite `f64` value is rational; the comparisons `== 0.0`, `== 1.0`,
  `<= 1.0` in the source are exact), with the logarithms of the skip-count
  formula taken over `ℝ` via `Real.log`.
* The random source `rng: &mut R` is modelled as a pure stream of draws
  `rng : ℕ → ℚ` together with a cursor `c : ℕ`; drawing one variate reads
  `rng c` and advances the cursor to `c + 1`.  The cursor delta of an
  operation is exactly the number of variates it consumes.
* `u32` skip counts are modelled as `ℕ` values; the saturation of the
  source at `u32::MAX` is the explicit clamp in `reset_skip_count`.
* The `assert!` in `FastBernoulli::new` (panic on an out-of-range
  probability) is modelled by an `Option` result: `none` is the panic.
-/

/-- Maximum value of the skip counter, modelling Rust `u32::MAX`. -/
def u32MAX : ℕ := 4294967295

/-- Sampler state, mirroring `struct FastBernoulli { probability: f64, skip_count: u32 }`
from `src/lib.rs`. -/
structure FastBernoulli where
  probability : ℚ
  skip_count : ℕ
deriving DecidableEq

/-- Mirrors `FastBernoulli::reset_skip_count` (src/lib.rs lines 164-192).
Given the configured probability `p`, the draw stream `rng` and the cursor
`c`, returns the new skip count together with the new cursor:

* `p == 0.0`: skip count saturates at `u32::MAX`, no draw;
* `p == 1.0`: skip count `0`, no draw;
* otherwise: draw `x = rng c`, compute `floor(ln x / ln (1 - p))` and clamp
  it at `u32::MAX`, advancing the cursor by one.  When the drawn variate is
  exactly `0`, the `f64` computation gives `ln(0) = -inf`, the ratio `+inf`
  (as `ln (1 - p) < 0`), and the `skip_count <= u32::MAX` test fails, so the
  code stores the clamp value `u32::MAX`; `Real.log` has no infinities
  (`Real.log 0 = 0`), so the model takes that saturation branch explicitly
  at `x = 0`. -/
noncomputable def reset_skip_count (p : ℚ) (rng : ℕ → ℚ) (c : ℕ) : ℕ × ℕ :=
  if p = 0 then (u32MAX, c)
  else if p = 1 then (0, c)
  else
    let x : ℚ := rng c
    if x = 0 then (u32MAX, c + 1)
    else
      let skip : ℤ := ⌊Real.log (x : ℝ) / Real.log (1 - (p : ℝ))⌋
      (if skip ≤ (u32MAX : ℤ) then skip.toNat else u32MAX, c + 1)

/-- Mirrors `FastBernoulli::new` (src/lib.rs lines 147-162).  The `assert!`
on `0.0 <= probability <= 1.0` is modelled by returning `none` (panic) when
the probability is out of range; on success the result is the constructed
sampler together with the cursor after construction. -/
noncomputable def new (p : ℚ) (rng : ℕ → ℚ) (c : ℕ) : Option (FastBernoulli × ℕ) :=
  if 0 ≤ p ∧ p ≤ 1 then
    let r := reset_skip_count p rng c
    some (⟨p, r.1⟩, r.2)
  else
    none

/-- Mirrors `FastBernoulli::trial` (src/lib.rs lines 217-228).  Returns the
trial outcome, the new sampler state and the new cursor. -/
noncomputable def trial (s : FastBernoulli) (rng : ℕ → ℚ) (c : ℕ) :
    Bool × FastBernoulli × ℕ :=
  if 0 < s.skip_count then
    (false, ⟨s.probability, s.skip_count - 1⟩, c)
  else
    let r := reset_skip_count s.probability rng c
    (decide (s.probability ≠ 0), ⟨s.probability, r.1⟩, r.2)

/-- Mirrors `FastBernoulli::multi_trial` (src/lib.rs lines 273-284).  Returns
the outcome, the new sampler state and the new cursor. -/
noncomputable def multi_trial (n : ℕ) (s : FastBernoulli) (rng : ℕ → ℚ) (c : ℕ) :
    Bool × FastBernoulli × ℕ :=
  if n < s.skip_count then
    (false, ⟨s.probability, s.skip_count - n⟩, c)
  else
    let r := reset_skip_count s.probability rng c
    (decide (s.probability ≠ 0), ⟨s.probability, r.1⟩, r.2)

/-- An operation on a sampler: a unit trial or a batched trial of `n` units. -/
inductive Op where
  | unit : Op
  | multi : ℕ → Op
deriving DecidableEq

/-- One operation step on a sampler state and cursor. -/
noncomputable def step (s : FastBernoulli) (rng : ℕ → ℚ) (c : ℕ) : Op → Bool × FastBernoulli × ℕ
  | Op.unit => trial s rng c
  | Op.multi n => multi_trial n s rng c

/-- Run a list of operations, collecting the list of outcomes and the final
sampler state and cursor. -/
noncomputable def runOps : List Op → FastBernoulli → (ℕ → ℚ) → ℕ → List Bool × FastBernoulli × ℕ
  | [], s, _, c => ([], s, c)
  | o :: os, s, rng, c =>
    let r := step s rng c o
    let rest := runOps os r.2.1 rng r.2.2
    (r.1 :: rest.1, rest.2)

/-- Claim C2: `trial` decrements a positive skip count and returns `false`
without consuming a draw from the random source; on a zero skip count it
refreshes the skip count (cursor and skip count as dictated by
`reset_skip_count`) and returns `true` exactly when the probability is
nonzero. -/
theorem trial_characterization (s : FastBernoulli) (rng : ℕ → ℚ) (c : ℕ) :
    (trial s rng c).1 = decide (s.skip_count = 0 ∧ s.probability ≠ 0) ∧
    ((trial s rng c).2.1).probability = s.probability ∧
    ((trial s rng c).2.1).skip_count =
      (if 0 < s.skip_count then s.skip_count - 1
       else (reset_skip_count s.probability rng c).1) ∧
    (trial s rng c).2.2 =
      (if 0 < s.skip_count then c else (reset_skip_count s.probability rng c).2) := by
  by_cases h : 0 < s.skip_count
  · have hz : ¬ s.skip_count = 0 := Nat.pos_iff_ne_zero.mp h
    simp [trial, h, hz]
  · have hz : s.skip_count = 0 := Nat.eq_zero_of_not_pos h
    simp [trial, h, hz]

/-- Claim C3: `multi_trial n` subtracts `n` from the skip count and returns
`false` without a draw when `n < skip_count`; otherwise it refreshes the
skip count exactly as `reset_skip_count` does and returns `true` exactly
when the probability is nonzero. -/
theorem multi_trial_characterization (n : ℕ) (s : FastBernoulli) (rng : ℕ → ℚ) (c : ℕ) :
    (multi_trial n s rng c).1 = decide (s.skip_count ≤ n ∧ s.probability ≠ 0) ∧
    ((multi_trial n s rng c).2.1).probability = s.probability ∧
    ((multi_trial n s rng c).2.1).skip_count =
      (if n < s.skip_count then s.skip_count - n
       else (reset_skip_count s.probability rng c).1) ∧
    (multi_trial n s rng c).2.2 =
      (if n < s.skip_count then c else (reset_skip_count s.probability rng c).2) := by
  by_cases h : n < s.skip_count
  · have hz : ¬ s.skip_count ≤ n := not_le.mpr h
    simp [multi_trial, h, hz]
  · have hz : s.skip_count ≤ n := le_of_not_lt h
    simp [multi_trial, h, hz]

/-- Claim C10: `multi_trial n` returns `true` exactly when `n` is at least
the current skip count and the probability is nonzero (so in particular
`multi_trial 0` on a zero skip count with positive probability returns
`true`), and it consumes a fresh draw via the refresh path exactly when
`skip_count ≤ n` and the probability is strictly between `0` and `1`. -/
theorem multi_trial_true_iff (n : ℕ) (s : FastBernoulli) (rng : ℕ → ℚ) (c : ℕ) :
    ((multi_trial n s rng c).1 = true ↔ (s.skip_count ≤ n ∧ s.probability ≠ 0)) ∧
    (multi_trial n s rng c).2.2 =
      (if n < s.skip_count then c else (reset_skip_count s.probability rng c).2) := by
  by_cases h : n < s.skip_count
  · have hz : ¬ s.skip_count ≤ n := not_le.mpr h
    simp [multi_trial, h, hz]
  · have hz : s.skip_count ≤ n := le_of_not_lt h
    simp [multi_trial, h, hz]

/-- Claim C1 (failing input): with probability `1/2`, current skip count `1`
and identical draw streams, `multi_trial 1` returns `true` while the run of
one unit `trial` returns `[false]` — so `multi_trial n` is distinguishable
from the disjunction of `n` unit trials at the boundary `n = skip_count`,
contradicting the documented equivalence. -/
theorem multi_trial_boundary_bug :
    (multi_trial 1 ⟨1/2, 1⟩ (fun _ => (1/2 : ℚ)) 0).1 = true ∧
    (runOps [Op.unit] ⟨1/2, 1⟩ (fun _ => (1/2 : ℚ)) 0).1 = [false] := by
  constructor
  · simp [multi_trial]
  · simp [runOps, step, trial]

/-- Claim C5: a sampler constructed with probability `0` starts with the
skip count saturated at `u32::MAX` and no draw consumed, and from any state
with probability `0` every run of consecutive unit trials returns only
`false`. -/
theorem prob_zero_trials_all_false (rng : ℕ → ℚ) (c : ℕ) (k m : ℕ)
    (rng' : ℕ → ℚ) (c' : ℕ) :
    new 0 rng c = some (⟨0, u32MAX⟩, c) ∧
    (runOps (List.replicate k Op.unit) ⟨0, m⟩ rng' c').1 = List.replicate k false := by
  constructor
  · simp [new, reset_skip_count]
  · induction k generalizing m c' with
    | zero => simp [runOps]
    | succ k ih =>
      by_cases h : 0 < m
      · simp [List.replicate_succ, runOps, step, trial, h, ih]
      · simp [List.replicate_succ, runOps, step, trial, h, reset_skip_count, ih]

/-- Claim C6: a sampler constructed with probability `1` starts with skip
count `0` (no draw consumed), and from that state any sequence of trial and
multi-trial operations returns `true` every time, never consumes a draw,
and leaves the skip count at `0` before and after every call. -/
theorem prob_one_trials_all_true (rng : ℕ → ℚ) (c : ℕ) (ops : List Op)
    (rng' : ℕ → ℚ) (c' : ℕ) :
    new 1 rng c = some (⟨1, 0⟩, c) ∧
    runOps ops ⟨1, 0⟩ rng' c' = (List.replicate ops.length true, ⟨1, 0⟩, c') := by
  refine ⟨by simp [new, reset_skip_count], ?_⟩
  induction ops generalizing c' with
  | nil => simp [runOps]
  | cons o os ih =>
    cases o with
    | unit => simp [List.length_cons, List.replicate_succ, runOps, step, trial,
        reset_skip_count, ih]
    | multi n => simp [List.length_cons, List.replicate_succ, runOps, step, multi_trial,
        reset_skip_count, ih]

/-- Claim C8: construction succeeds exactly when the probability lies in the
closed interval `[0, 1]` (outside it the `assert!` panics, modelled by
`none`), and on success the stored probability is exactly the one supplied,
never clamped. -/
theorem new_succeeds_iff_valid (p : ℚ) (rng : ℕ → ℚ) (c : ℕ) :
    (new p rng c).isSome = decide (0 ≤ p ∧ p ≤ 1) ∧
    Option.map (fun r => r.1.probability) (new p rng c) =
      (if 0 ≤ p ∧ p ≤ 1 then some p else none) := by
  by_cases h : 0 ≤ p ∧ p ≤ 1 <;> simp [new, h]

/-- Claim C9 (counterexample): constructing with probability `0` consumes no
draw at all — the cursor after construction is still `0`, not `1`, so
construction does not always consume exactly one uniform variate. -/
theorem new_prob_zero_consumes_no_draw :
    Option.map Prod.snd (new 0 (fun _ => (1/2 : ℚ)) 0) ≠ some 1 ∧
    Option.map Prod.snd (new 0 (fun _ => (1/2 : ℚ)) 0) = some 0 := by
  constructor <;> simp [new, reset_skip_count]

/-- Claim C9 (amended): for a valid probability, construction consumes
exactly one uniform variate when the probability is strictly between `0`
and `1`, and none at all when the probability is `0` or `1`. -/
theorem new_draw_consumption (p : ℚ) (rng : ℕ → ℚ) (c : ℕ)
    (h0 : 0 ≤ p) (h1 : p ≤ 1) :
    Option.map Prod.snd (new p rng c) =
      some (if p = 0 ∨ p = 1 then c else c + 1) := by
  by_cases hp0 : p = 0
  · simp [new, reset_skip_count, hp0]
  · by_cases hp1 : p = 1
    · simp [new, reset_skip_count, hp1]
    · simp [new, reset_skip_count, hp0, hp1, h0, h1]
      split <;> rfl

/-- Witness for `new_draw_consumption` at probability `1/2`, cursor `0`. -/
theorem new_draw_consumption_witness :
    (0 : ℚ) ≤ 1/2 ∧ (1/2 : ℚ) ≤ 1 ∧
    Option.map Prod.snd (new (1/2) (fun _ => (1/2 : ℚ)) 0) =
      some (if (1/2 : ℚ) = 0 ∨ (1/2 : ℚ) = 1 then 0 else 0 + 1) :=
  ⟨by norm_num, by norm_num,
    new_draw_consumption (1/2) (fun _ => (1/2 : ℚ)) 0 (by norm_num) (by norm_num)⟩

/-- Claim C4: for a probability strictly between `0` and `1` and a drawn
variate in `[0, 1)`, the refresh routine consumes exactly one draw; for a
nonzero variate the geometric-inverse-CDF value `floor(ln x / ln (1 - p))`
is non-negative and the stored skip count is that value clamped at
`u32::MAX`; for the variate `0` the `f64` ratio is `+inf`, which exceeds
`u32::MAX`, and the stored skip count is the clamp value `u32::MAX`. -/
theorem reset_skip_count_geometric (p : ℚ) (rng : ℕ → ℚ) (c : ℕ)
    (hp0 : 0 < p) (hp1 : p < 1) (hx0 : 0 ≤ rng c) (hx1 : rng c < 1) :
    (reset_skip_count p rng c).2 = c + 1 ∧
    (rng c = 0 → reset_skip_count p rng c = (u32MAX, c + 1)) ∧
    (0 < rng c →
      0 ≤ ⌊Real.log ((rng c : ℚ) : ℝ) / Real.log (1 - (p : ℝ))⌋ ∧
      reset_skip_count p rng c =
        (min (⌊Real.log ((rng c : ℚ) : ℝ) / Real.log (1 - (p : ℝ))⌋.toNat) u32MAX,
          c + 1)) := by
  by_cases hx : rng c = 0
  · have he : reset_skip_count p rng c = (u32MAX, c + 1) := by
      rw [reset_skip_count, if_neg hp0.ne', if_neg hp1.ne]
      simp [hx]
    exact ⟨by rw [he], fun _ => he, fun h => absurd hx h.ne'⟩
  · have hx0R : (0 : ℝ) ≤ ((rng c : ℚ) : ℝ) := by exact_mod_cast hx0
    have hx1R : ((rng c : ℚ) : ℝ) ≤ 1 := by
      have h1 : ((rng c : ℚ) : ℝ) < 1 := by exact_mod_cast hx1
      exact h1.le
    have hlogx : Real.log ((rng c : ℚ) : ℝ) ≤ 0 := Real.log_nonpos hx0R hx1R
    have h1p0 : (0 : ℝ) < 1 - (p : ℝ) := by
      have h2 : (p : ℝ) < 1 := by exact_mod_cast hp1
      linarith
    have h1p1 : (1 : ℝ) - (p : ℝ) < 1 := by
      have h3 : (0 : ℝ) < (p : ℝ) := by exact_mod_cast hp0
      linarith
    have hlog1p : Real.log (1 - (p : ℝ)) < 0 := Real.log_neg h1p0 h1p1
    have hdiv : 0 ≤ Real.log ((rng c : ℚ) : ℝ) / Real.log (1 - (p : ℝ)) :=
      div_nonneg_iff.mpr (Or.inr ⟨hlogx, hlog1p.le⟩)
    have hfloor : 0 ≤ ⌊Real.log ((rng c : ℚ) : ℝ) / Real.log (1 - (p : ℝ))⌋ :=
      Int.floor_nonneg.mpr hdiv
    have he : reset_skip_count p rng c =
        (min (⌊Real.log ((rng c : ℚ) : ℝ) / Real.log (1 - (p : ℝ))⌋.toNat) u32MAX,
          c + 1) := by
      rw [reset_skip_count, if_neg hp0.ne', if_neg hp1.ne]
      simp only []
      rw [if_neg hx]
      congr 1
      split
      · next h => omega
      · next h => omega
    exact ⟨by rw [he], fun h0 => absurd h0 hx, fun _ => ⟨hfloor, he⟩⟩

/-- The refresh routine never produces a skip count above `u32::MAX`. -/
theorem reset_skip_count_le (p : ℚ) (rng : ℕ → ℚ) (c : ℕ) :
    (reset_skip_count p rng c).1 ≤ u32MAX := by
  rw [reset_skip_count]
  split
  · exact le_refl _
  · split
    · exact Nat.zero_le _
    · simp only []
      split
      · exact le_refl _
      · split
        · next h => omega
        · exact le_refl _

/-- Any run of operations leaves the configured probability unchanged. -/
theorem runOps_probability (ops : List Op) (s : FastBernoulli) (rng : ℕ → ℚ) (c : ℕ) :
    ((runOps ops s rng c).2.1).probability = s.probability := by
  induction ops generalizing s c with
  | nil => simp [runOps]
  | cons o os ih =>
    cases o with
    | unit =>
      rw [runOps]
      simp only [step]
      rw [trial]
      split <;> simp [ih]
    | multi n =>
      rw [runOps]
      simp only [step]
      rw [multi_trial]
      split <;> simp [ih]

/-- Any run of operations keeps the skip count at most `u32::MAX`, provided
it starts at most `u32::MAX`. -/
theorem runOps_skip_le (ops : List Op) (s : FastBernoulli) (rng : ℕ → ℚ) (c : ℕ)
    (hs : s.skip_count ≤ u32MAX) :
    ((runOps ops s rng c).2.1).skip_count ≤ u32MAX := by
  induction ops generalizing s c with
  | nil => simpa [runOps] using hs
  | cons o os ih =>
    cases o with
    | unit =>
      rw [runOps]
      simp only [step]
      rw [trial]
      split
      · exact ih _ _ (by show s.skip_count - 1 ≤ u32MAX; omega)
      · exact ih _ _ (reset_skip_count_le _ _ _)
    | multi n =>
      rw [runOps]
      simp only [step]
      rw [multi_trial]
      split
      · exact ih _ _ (by show s.skip_count - n ≤ u32MAX; omega)
      · exact ih _ _ (reset_skip_count_le _ _ _)

/-- From a state with nonzero probability and skip count `k`, the next `k`
unit trials return `false` and the `(k+1)`-st returns `true`. -/
theorem trials_until_true (k : ℕ) (p : ℚ) (hp : p ≠ 0) (rng : ℕ → ℚ) (c : ℕ) :
    (runOps (List.replicate (k + 1) Op.unit) ⟨p, k⟩ rng c).1 =
      List.replicate k false ++ [true] := by
  induction k generalizing c with
  | zero => simp [runOps, step, trial, hp]
  | succ k ih =>
    have ht : trial ⟨p, k + 1⟩ rng c = (false, ⟨p, k⟩, c) := by
      rw [trial]
      simp
    calc (runOps (List.replicate (k + 1 + 1) Op.unit) ⟨p, k + 1⟩ rng c).1
        = false :: (runOps (List.replicate (k + 1) Op.unit) ⟨p, k⟩ rng c).1 := by
          rw [List.replicate_succ, runOps]
          simp only [step, ht]
      _ = false :: (List.replicate k false ++ [true]) := by rw [ih]
      _ = List.replicate (k + 1) false ++ [true] := by simp [List.replicate_succ]

/-- Claim C7: after any sequence of trial and multi-trial operations started
from a state with skip count at most `u32::MAX` (as every constructed
sampler is), the skip count is still at most `u32::MAX` (and, being a `ℕ`,
never negative) whatever the probability; and when the probability is
positive the next `skip_count + 1` unit trials return `skip_count` times
`false` followed by `true`. -/
theorem skip_count_bounded_true_within (s : FastBernoulli) (rng : ℕ → ℚ) (c : ℕ)
    (ops : List Op) (rng₂ : ℕ → ℚ) (c₂ : ℕ)
    (hs : s.skip_count ≤ u32MAX) :
    ((runOps ops s rng c).2.1).skip_count ≤ u32MAX ∧
    (0 < s.probability →
      (runOps (List.replicate (((runOps ops s rng c).2.1).skip_count + 1) Op.unit)
          ((runOps ops s rng c).2.1) rng₂ c₂).1 =
        List.replicate (((runOps ops s rng c).2.1).skip_count) false ++ [true]) := by
  refine ⟨runOps_skip_le ops s rng c hs, fun hp => ?_⟩
  have hne : ((runOps ops s rng c).2.1).probability ≠ 0 := by
    rw [runOps_probability ops s rng c]
    exact hp.ne'
  exact trials_until_true (((runOps ops s rng c).2.1).skip_count)
    (((runOps ops s rng c).2.1).probability) hne rng₂ c₂

/-- Witness for `skip_count_bounded_true_within` at probability `1/2`, skip
count `3`, the empty operation sequence and a constant draw stream. -/
theorem skip_count_bounded_true_within_witness :
    (⟨1/2, 3⟩ : FastBernoulli).skip_count ≤ u32MAX ∧
    (((runOps [] ⟨1/2, 3⟩ (fun _ => (1/2 : ℚ)) 0).2.1).skip_count ≤ u32MAX ∧
     (0 < (⟨1/2, 3⟩ : FastBernoulli).probability →
       (runOps
           (List.replicate (((runOps [] ⟨1/2, 3⟩ (fun _ => (1/2 : ℚ)) 0).2.1).skip_count + 1)
             Op.unit)
           ((runOps [] ⟨1/2, 3⟩ (fun _ => (1/2 : ℚ)) 0).2.1) (fun _ => (1/2 : ℚ)) 0).1 =
         List.replicate (((runOps [] ⟨1/2, 3⟩ (fun _ => (1/2 : ℚ)) 0).2.1).skip_count) false ++
           [true])) :=
  ⟨by decide,
   skip_count_bounded_true_within ⟨1/2, 3⟩ (fun _ => (1/2 : ℚ)) 0 [] (fun _ => (1/2 : ℚ)) 0
     (by decide)⟩

/-- Witness for `reset_skip_count_geometric` at probability `1/2`, drawn
variate `1/2`, cursor `0`. -/
theorem reset_skip_count_geometric_witness :
    (0 : ℚ) < 1/2 ∧ (1/2 : ℚ) < 1 ∧ (0 : ℚ) ≤ 1/2 ∧ (1/2 : ℚ) < 1 ∧
    ((reset_skip_count (1/2) (fun _ => (1/2 : ℚ)) 0).2 = 0 + 1 ∧
     ((1/2 : ℚ) = 0 → reset_skip_count (1/2) (fun _ => (1/2 : ℚ)) 0 = (u32MAX, 0 + 1)) ∧
     ((0 : ℚ) < 1/2 →
       0 ≤ ⌊Real.log ((1/2 : ℚ) : ℝ) / Real.log (1 - ((1/2 : ℚ) : ℝ))⌋ ∧
       reset_skip_count (1/2) (fun _ => (1/2 : ℚ)) 0 =
         (min (⌊Real.log ((1/2 : ℚ) : ℝ) / Real.log (1 - ((1/2 : ℚ) : ℝ))⌋.toNat) u32MAX,
           0 + 1))) :=
  ⟨by norm_num, by norm_num, by norm_num, by norm_num,
   reset_skip_count_geometric (1/2) (fun _ => (1/2 : ℚ)) 0 (by norm_num) (by norm_num)
     (by norm_num) (by norm_num)⟩
